import Mathlib

/-!
Verification of the Floww deal-workflow and proposal generator (src/app.py)
against its specification.  The Python source is shallowly embedded: JSON
payloads become a `Json` inductive, pydantic model validation becomes
`Except`-valued parsing functions, the Streamlit session dictionary becomes an
explicit `SessionState`, and each handler block becomes a state-passing
function.
-/

set_option autoImplicit false

/-- A JSON value, as produced by Python's `json` module from the model
response.  Numbers are rationals (covering both Python `int` and `float`
payload values). -/
inductive Json where
  | str (s : String)
  | num (q : ℚ)
  | bool (b : Bool)
  | null
  | arr (xs : List Json)
  | obj (fields : List (String × Json))
  deriving Repr

/-- Key lookup in a JSON object's field list (Python `dict` access: the first
binding of the key; JSON decoding yields distinct keys). -/
def alookupJ : List (String × Json) → String → Option Json
  | [], _ => none
  | (k, v) :: rest, q => if k = q then some v else alookupJ rest q

/-- `class StageModel(BaseModel): stage: str; tip: str` (src/app.py lines 41-43). -/
structure StageModel where
  stage : String
  tip : String
  deriving Repr, DecidableEq

/-- `class WorkflowModel(BaseModel): workflow: List[StageModel]` (src/app.py lines 45-46). -/
structure WorkflowModel where
  workflow : List StageModel
  deriving Repr, DecidableEq

/-- Validation of one element of the `workflow` array against `StageModel`:
fields `stage` and `tip` must be present and be strings; extra fields are
ignored (pydantic default). -/
def parseStage : Json → Except String StageModel
  | Json.obj fields =>
      match alookupJ fields "stage" with
      | some (Json.str s) =>
          match alookupJ fields "tip" with
          | some (Json.str t) => Except.ok ⟨s, t⟩
          | _ => Except.error "tip: string expected"
      | _ => Except.error "stage: string expected"
  | _ => Except.error "stage entry: object expected"

/-- Validation of the `workflow` array: each element is validated in order and
the first failure aborts (pydantic list validation). -/
def parseStages : List Json → Except String (List StageModel)
  | [] => Except.ok []
  | j :: rest =>
      match parseStage j with
      | Except.ok s =>
          match parseStages rest with
          | Except.ok ss => Except.ok (s :: ss)
          | Except.error e => Except.error e
      | Except.error e => Except.error e

/-- `WorkflowModel.parse_raw` (src/app.py lines 129 and 144) on an already
JSON-decoded payload: the payload must be an object whose `workflow` field is
an array of valid stage objects.  There is no constraint on the number of
stages. -/
def parseWorkflow : Json → Except String WorkflowModel
  | Json.obj fields =>
      match alookupJ fields "workflow" with
      | some (Json.arr xs) =>
          match parseStages xs with
          | Except.ok ss => Except.ok ⟨ss⟩
          | Except.error e => Except.error e
      | _ => Except.error "workflow: list expected"
  | _ => Except.error "object expected"

/-- One Python `dict` assignment `d[k] = v`: replaces the value of an existing
key in place, otherwise appends the binding (insertion order preserved). -/
def dictInsert : List (String × String) → String → String → List (String × String)
  | [], k, v => [(k, v)]
  | (k', v') :: rest, k, v =>
      if k' = k then (k', v) :: rest else (k', v') :: dictInsert rest k v

/-- The tips dictionary `{s.stage: s.tip for s in wf.workflow}` (src/app.py
lines 137 and 147): stages are inserted in order, a later stage with the same
name overwriting the earlier tip. -/
def buildTips (ws : List StageModel) : List (String × String) :=
  ws.foldl (fun d s => dictInsert d s.stage s.tip) []

/-- Python `dict` read access `tips[name]`: `some` the stored value, `none`
when the key is absent (a `KeyError` in Python). -/
def tipsGet : List (String × String) → String → Option String
  | [], _ => none
  | (k, v) :: rest, q => if k = q then some v else tipsGet rest q

/-- The slice of `st.session_state` the workflow tab uses: the stored raw
payload `wf_json`, the ordered stage names `stages`, and the `tips`
dictionary. -/
structure SessionState where
  wf_json : Option Json
  stages : List String
  tips : List (String × String)
  deriving Repr

/-- The three session assignments performed after a successful parse
(src/app.py lines 135-137 and 145-147). -/
def installWorkflow (j : Json) (wf : WorkflowModel) : SessionState :=
  { wf_json := some j
    stages := wf.workflow.map (fun s => s.stage)
    tips := buildTips wf.workflow }

/-- The `Generate Workflow` handler from the point where a payload has been
extracted (src/app.py lines 128-137): on validation success the session state
is replaced, on failure an error is shown (`Bool` result) and the state is
untouched (`st.stop`). -/
def generateHandler (st : SessionState) (j : Json) : SessionState × Bool :=
  match parseWorkflow j with
  | Except.ok wf => (installWorkflow j wf, false)
  | Except.error _ => (st, true)

/-- The `Re-Render Diagram` handler (src/app.py lines 142-149): re-validate the
edited payload; on success replace `wf_json`, `stages` and `tips`; on failure
show `Invalid JSON` and leave the session state unchanged. -/
def reRenderHandler (st : SessionState) (j : Json) : SessionState × Bool :=
  match parseWorkflow j with
  | Except.ok wf => (installWorkflow j wf, false)
  | Except.error _ => (st, true)

/-- Canonical encoding of a WorkflowSchema payload from its stage data, for
concrete instances. -/
def workflowJson (ss : List (String × String)) : Json :=
  Json.obj [("workflow",
    Json.arr (ss.map fun p => Json.obj [("stage", Json.str p.1), ("tip", Json.str p.2)]))]

/-- The opening-brace character, written by code point to keep brace characters
out of the file's literals. -/
def lbrace : Char := Char.ofNat 123

/-- The closing-brace character. -/
def rbrace : Char := Char.ofNat 125

/-- The tail of the regex search of `extractJson` once the leftmost viable
start (the first opening brace) has been fixed: the greedy dot-all `.*` runs
to the end of the text and backtracks to the last closing brace, failing when
there is none. -/
def greedyClose (opened : List Char) : Option (List Char) :=
  match opened.reverse.dropWhile (fun d => d ≠ rbrace) with
  | [] => none
  | ds => some ds.reverse

/-- `re.search(r"\x7b.*\x7d", raw, re.S)` (src/app.py line 122), on the
character list of `raw`.  The regex engine starts the match at the leftmost
position where the pattern can succeed — the first opening brace — and the
greedy dot-all `.*` then extends to the last closing brace of the whole text.
`none` models an unsuccessful search (`match` is falsy, src/app.py line 123). -/
def extractJson (raw : List Char) : Option (List Char) :=
  match raw.dropWhile (fun c => c ≠ lbrace) with
  | [] => none
  | c :: rest => greedyClose (c :: rest)

/-- The response extractor on strings: the substring `match.group(0)` stored as
`wf_json`, or `none` when no brace-delimited region is found. -/
def extract (raw : String) : Option String :=
  (extractJson raw.data).map fun cs => String.mk cs

/-- Depth-counting scan used by `spec_firstRegion`: at depth 0 characters
before the first opening brace are skipped; the region ends at the closing
brace that returns the depth to 0. -/
def firstRegionAux : List Char → Nat → List Char → Option (List Char)
  | [], _, _ => none
  | c :: rest, d, acc =>
      if c = lbrace then firstRegionAux rest (d + 1) (c :: acc)
      else if c = rbrace then
        if d = 0 then firstRegionAux rest 0 acc
        else if d = 1 then some (c :: acc).reverse
        else firstRegionAux rest (d - 1) (c :: acc)
      else if d = 0 then firstRegionAux rest 0 acc
      else firstRegionAux rest d (c :: acc)

/-- The spec's description of the extractor edge case, stated as its own
function for comparison with the code: of the (non-overlapping, leftmost)
top-level brace-delimited regions of the text, return the first. -/
def spec_firstRegion (raw : String) : Option String :=
  (firstRegionAux raw.data 0 []).map fun cs => String.mk cs

/-- One row's playbook entry: the row's own data together with the
`suggestion` column (src/app.py line 191). -/
structure PlayEntry (Row : Type) where
  row : Row
  suggestion : String
  deriving Repr, DecidableEq

/-- The CRM playbook loop (src/app.py lines 182-191): one completion call per
row, issued sequentially in row order, appending to `play`.  The loop body has
no exception handling, so a failing call propagates out of the loop and the
rows processed so far are discarded (`Except.error`). -/
def crmBatch {Row : Type} (call : Row → Except String String) :
    List Row → Except String (List (PlayEntry Row))
  | [] => Except.ok []
  | r :: rest =>
      match call r with
      | Except.ok sugg =>
          match crmBatch call rest with
          | Except.ok play => Except.ok (⟨r, sugg⟩ :: play)
          | Except.error e => Except.error e
      | Except.error e => Except.error e

/-- The PPTX export loop (src/app.py lines 199-202): one content slide per
stage name, with title `s` and body `st.session_state['tips'][s]`.  The dict
access raises `KeyError` on a missing key, modelled as `Except.error`. -/
def pptxSlides : List String → List (String × String) → Except String (List (String × String))
  | [], _ => Except.ok []
  | s :: rest, tips =>
      match tipsGet tips s with
      | some t =>
          match pptxSlides rest tips with
          | Except.ok slides => Except.ok ((s, t) :: slides)
          | Except.error e => Except.error e
      | none => Except.error "KeyError"

/-- Page height of `reportlab.lib.pagesizes.letter`: 792 points
(src/app.py line 347, `w, h = letter`). -/
def pageH : ℚ := 792

/-- The body of `add_text` (src/app.py lines 349-356) with an explicit trace:
for each line, record the cursor position the line is drawn at and whether a
page break (`c.showPage()`) follows it; the second component is the returned
`y_pos`.  After drawing, the cursor drops by `leading`; when it falls below 60
the generator starts a new page and resets the cursor to `h - 40`. -/
def addTextSteps (leading : ℚ) : ℚ → List String → List (ℚ × Bool) × ℚ
  | y, [] => ([], y)
  | y, _ :: rest =>
      if y - leading < 60 then
        let next := addTextSteps leading (pageH - 40) rest
        ((y, true) :: next.1, next.2)
      else
        let next := addTextSteps leading (y - leading) rest
        ((y, false) :: next.1, next.2)

/-- The cursor transition `add_text` applies per line: decrement by `leading`,
and on crossing below 60 reset to the top margin `h - 40`. -/
def pageStep (leading y : ℚ) : ℚ :=
  if y - leading < 60 then pageH - 40 else y - leading

/-- Modelled from the spec: the deal-size bucketing rule of section 4.1.  No
deal-amount input or bucket computation exists in src/app.py (this revision
has no deal-size parameter), so the thresholds are taken from the spec's
words: amount < 100,000 gives "<100K"; < 500,000 gives "100K-500K";
< 1,000,000 gives "500K-1M"; < 5,000,000 gives "1M-5M"; else ">5M". -/
def bucket (amount : ℕ) : String :=
  if amount < 100000 then "<100K"
  else if amount < 500000 then "100K-500K"
  else if amount < 1000000 then "500K-1M"
  else if amount < 5000000 then "1M-5M"
  else ">5M"

/-- Python truthiness of a JSON-decoded value: `None`, `0`, `0.0`, the empty
string, the empty list and the empty dict are falsy. -/
def jTruthy : Json → Bool
  | Json.null => false
  | Json.num q => q ≠ 0
  | Json.str s => s ≠ ""
  | Json.bool b => b
  | Json.arr xs => !xs.isEmpty
  | Json.obj fs => !fs.isEmpty

/-- `details.get(k)` on a JSON-decoded dict: the stored value, or `None` when
the key is absent. -/
def jGet (d : List (String × Json)) (k : String) : Json :=
  (alookupJ d k).getD Json.null

/-- Python `a or b or c`: the first truthy operand, else the last operand. -/
def pyOr3 (a b c : Json) : Json :=
  if jTruthy a then a else if jTruthy b then b else c

/-- One iteration of the pricing dict-normalization loop (src/app.py lines
322-329): only entries whose details are a dict are kept, and each becomes
`{"item": item, "qty": details.get("qty") or details.get("Qty") or 1,
"unit": details.get("unit") or details.get("Unit") or "",
"price": details.get("price") or details.get("Unit Price") or 0.0}`. -/
def normalizeEntry (item : String) (details : Json) : Option Json :=
  match details with
  | Json.obj d =>
      some (Json.obj
        [("item", Json.str item),
         ("qty", pyOr3 (jGet d "qty") (jGet d "Qty") (Json.num 1)),
         ("unit", pyOr3 (jGet d "unit") (jGet d "Unit") (Json.str "")),
         ("price", pyOr3 (jGet d "price") (jGet d "Unit Price") (Json.num 0))])
  | _ => none

/-- The pricing normalization block (src/app.py lines 320-330): when
`proposal.pricing` is a dict, rebuild it as the list of normalized entries in
iteration order; any other shape (in particular the canonical list shape) is
left unchanged. -/
def normalizePricing (pricing : Json) : Json :=
  match pricing with
  | Json.obj entries => Json.arr (entries.filterMap fun e => normalizeEntry e.1 e.2)
  | other => other

/-- Modelled from the spec: the derived field `subtotal` = quantity × unit
price of the canonical PricingLineItem (section 3).  The normalization code in
src/app.py stores only item, qty, unit and price; no subtotal is computed
there, so the derivation follows the spec's words. -/
def entrySubtotal (e : Json) : Option ℚ :=
  match e with
  | Json.obj d =>
      match alookupJ d "qty", alookupJ d "price" with
      | some (Json.num q), some (Json.num p) => some (q * p)
      | _, _ => none
  | _ => none

/-- One row of the user's editable pricing table (`st.session_state
["price_table"]` / `price_df`): columns Item, Qty, Unit, Unit Price, with the
dtypes forced at generation time (src/app.py lines 270-273). -/
structure PriceRow where
  item : String
  qty : ℤ
  unit : String
  unitPrice : ℚ
  deriving Repr, DecidableEq

/-- `price_df["Subtotal"] = price_df["Qty"] * price_df["Unit Price"]`
(src/app.py line 264), per row. -/
def rowSubtotal (r : PriceRow) : ℚ :=
  r.qty * r.unitPrice

/-- `total = price_df["Subtotal"].sum()` (src/app.py line 265): the figure
shown by the Grand Total metric (line 266) and interpolated into the PDF
(line 377). -/
def grandTotal (tbl : List PriceRow) : ℚ :=
  (tbl.map rowSubtotal).sum

/-- One row of `display_df = pd.DataFrame(proposal.pricing)` (src/app.py line
340): the AI-returned, normalized pricing rendered on screen and in the PDF. -/
structure PricingDisplayRow where
  item : String
  qty : ℚ
  unit : String
  price : ℚ
  deriving Repr, DecidableEq

/-- A line of the PDF pricing section, kept structured rather than formatted. -/
inductive PdfLine where
  | pricingLine (item : String) (qty : ℚ) (unit : String) (price : ℚ)
  | grandTotalLine (total : ℚ)
  deriving Repr, DecidableEq

/-- The PDF pricing section (src/app.py lines 374-377): one line per
`display_df` row, then `Grand Total: ${total:,.0f}` using the `total` computed
from the user's pricing table at line 265 — not from `display_df`. -/
def pdfPricingSection (tbl : List PriceRow) (display : List PricingDisplayRow) :
    List PdfLine :=
  (display.map fun r => PdfLine.pricingLine r.item r.qty r.unit r.price)
    ++ [PdfLine.grandTotalLine (grandTotal tbl)]

/-- The grand-total figure printed by a PDF pricing section, when present. -/
def printedGrandTotal : List PdfLine → Option ℚ
  | [] => none
  | PdfLine.grandTotalLine t :: _ => some t
  | _ :: rest => printedGrandTotal rest

/-- The sum of qty × price over the pricing lines of a PDF pricing section. -/
def printedLinesTotal : List PdfLine → ℚ
  | [] => 0
  | PdfLine.pricingLine _ q _ p :: rest => q * p + printedLinesTotal rest
  | _ :: rest => printedLinesTotal rest

/-- A concrete per-row completion call that fails on row 2 and succeeds on all
other rows. -/
def crmCall0 : ℕ → Except String String :=
  fun r => if r = 2 then Except.error "boom" else Except.ok "next step"

/-- The named field of a normalized pricing entry, when the entry exists and
is an object. -/
def entryField (e : Option Json) (k : String) : Option Json :=
  match e with
  | some (Json.obj fs) => alookupJ fs k
  | _ => none

/-- The dict-shaped pricing payload of the spec's example:
`{"Integration": {"qty": 2, "price": 500}}`. -/
def integDictPricing : Json :=
  Json.obj [("Integration", Json.obj [("qty", Json.num 2), ("price", Json.num 500)])]

/-- The canonical line item of the spec's example — also the sole element of
the equivalent list-shaped payload. -/
def integLineItem : Json :=
  Json.obj [("item", Json.str "Integration"), ("qty", Json.num 2),
            ("unit", Json.str ""), ("price", Json.num 500)]

/-! ### Helper lemmas -/

theorem printedGrandTotal_map_append (display : List PricingDisplayRow) (t : ℚ) :
    printedGrandTotal
      ((display.map fun r => PdfLine.pricingLine r.item r.qty r.unit r.price)
        ++ [PdfLine.grandTotalLine t]) = some t := by
  induction display with
  | nil => rfl
  | cons r rest ih => simpa [printedGrandTotal] using ih

theorem tipsGet_dictInsert (d : List (String × String)) (k v q : String) :
    tipsGet (dictInsert d k v) q = if q = k then some v else tipsGet d q := by
  induction d with
  | nil =>
      simp only [dictInsert, tipsGet]
      by_cases h : k = q
      · rw [if_pos h, if_pos h.symm]
      · rw [if_neg h, if_neg fun hh => h hh.symm]
  | cons p rest ih =>
      obtain ⟨a, b⟩ := p
      simp only [dictInsert]
      by_cases hak : a = k
      · rw [if_pos hak]
        simp only [tipsGet]
        by_cases haq : a = q
        · have hqk : q = k := haq.symm.trans hak
          rw [if_pos haq, if_pos hqk]
        · have hqk : ¬ q = k := fun hh => haq (hak.trans hh.symm)
          rw [if_neg haq, if_neg hqk, if_neg haq]
      · rw [if_neg hak]
        simp only [tipsGet]
        by_cases haq : a = q
        · have hqk : ¬ q = k := fun hh => hak (haq.trans hh)
          rw [if_pos haq, if_neg hqk, if_pos haq]
        · rw [if_neg haq, ih, if_neg haq]

theorem tipsGet_buildTips (ws : List StageModel) (k : String) :
    tipsGet (buildTips ws) k =
      (ws.reverse.find? (fun s => s.stage == k)).map StageModel.tip := by
  induction ws using List.reverseRecOn with
  | nil => rfl
  | append_singleton ws s ih =>
      have hfold : buildTips (ws ++ [s]) = dictInsert (buildTips ws) s.stage s.tip := by
        simp [buildTips, List.foldl_append]
      rw [hfold, tipsGet_dictInsert, List.reverse_append]
      simp only [List.reverse_singleton, List.singleton_append]
      by_cases h : s.stage = k
      · rw [List.find?_cons_of_pos _ (by simp [h]), if_pos h.symm]
        rfl
      · rw [List.find?_cons_of_neg _ (by simp [h]), if_neg fun hh => h hh.symm, ih]

theorem tipsGet_buildTips_isSome (ws : List StageModel) (s : StageModel) (hs : s ∈ ws) :
    ∃ t, tipsGet (buildTips ws) s.stage = some t := by
  rw [tipsGet_buildTips]
  have hsome : (ws.reverse.find? (fun x => x.stage == s.stage)).isSome := by
    rw [List.find?_isSome]
    exact ⟨s, List.mem_reverse.mpr hs, by simp⟩
  obtain ⟨t, ht⟩ := Option.isSome_iff_exists.mp hsome
  exact ⟨t.tip, by rw [ht]; rfl⟩

theorem tipsGet_buildTips_nodup (ws : List StageModel)
    (hnd : (ws.map fun s => s.stage).Nodup) (s : StageModel) (hs : s ∈ ws) :
    tipsGet (buildTips ws) s.stage = some s.tip := by
  rw [tipsGet_buildTips]
  have hsome : (ws.reverse.find? (fun x => x.stage == s.stage)).isSome := by
    rw [List.find?_isSome]
    exact ⟨s, List.mem_reverse.mpr hs, by simp⟩
  obtain ⟨t, ht⟩ := Option.isSome_iff_exists.mp hsome
  have htmem : t ∈ ws := List.mem_reverse.mp (List.mem_of_find?_eq_some ht)
  have hteq : t.stage = s.stage := by
    have := List.find?_some ht
    simpa using this
  have : t = s := List.inj_on_of_nodup_map hnd htmem hs hteq
  rw [ht, this]
  rfl

theorem parseStages_ok_length {xs : List Json} {ss : List StageModel}
    (h : parseStages xs = Except.ok ss) : ss.length = xs.length := by
  induction xs generalizing ss with
  | nil =>
      simp only [parseStages] at h
      cases h
      rfl
  | cons j rest ih =>
      simp only [parseStages] at h
      cases hp : parseStage j with
      | error e => rw [hp] at h; cases h
      | ok s =>
          rw [hp] at h
          cases hr : parseStages rest with
          | error e => rw [hr] at h; cases h
          | ok ss2 =>
              rw [hr] at h
              cases h
              simp [ih hr]

theorem parseStages_ok_get {xs : List Json} {ss : List StageModel}
    (h : parseStages xs = Except.ok ss) :
    ∀ i : ℕ, xs[i]?.map parseStage = ss[i]?.map Except.ok := by
  induction xs generalizing ss with
  | nil =>
      simp only [parseStages] at h
      cases h
      intro i
      rfl
  | cons j rest ih =>
      simp only [parseStages] at h
      cases hp : parseStage j with
      | error e => rw [hp] at h; cases h
      | ok s =>
          rw [hp] at h
          cases hr : parseStages rest with
          | error e => rw [hr] at h; cases h
          | ok ss2 =>
              rw [hr] at h
              cases h
              intro i
              cases i with
              | zero => simp [hp]
              | succ n => simpa using ih hr n

theorem parseWorkflow_obj {fields : List (String × Json)} {xs : List Json}
    {wf : WorkflowModel}
    (hf : alookupJ fields "workflow" = some (Json.arr xs))
    (hp : parseWorkflow (Json.obj fields) = Except.ok wf) :
    parseStages xs = Except.ok wf.workflow := by
  simp only [parseWorkflow, hf] at hp
  cases hps : parseStages xs with
  | error e => rw [hps] at hp; cases hp
  | ok ss =>
      rw [hps] at hp
      cases hp
      rfl

theorem dropWhile_append_of_forall {α : Type} (p : α → Bool) (l1 l2 : List α)
    (h : ∀ x ∈ l1, p x = true) : (l1 ++ l2).dropWhile p = l2.dropWhile p := by
  induction l1 with
  | nil => rfl
  | cons a rest ih =>
      rw [List.cons_append, List.dropWhile_cons, if_pos (h a (List.mem_cons_self a rest))]
      exact ih fun x hx => h x (List.mem_cons_of_mem a hx)

theorem addTextSteps_closed (leading : ℚ) (lines : List String) : ∀ y0 : ℚ,
    addTextSteps leading y0 lines =
      ((List.range lines.length).map fun i =>
        ((pageStep leading)^[i] y0, decide ((pageStep leading)^[i] y0 - leading < 60)),
       (pageStep leading)^[lines.length] y0) := by
  induction lines with
  | nil =>
      intro y0
      simp [addTextSteps]
  | cons l rest ih =>
      intro y0
      have hstep : addTextSteps leading y0 (l :: rest) =
          ((y0, decide (y0 - leading < 60)) ::
            (addTextSteps leading (pageStep leading y0) rest).1,
           (addTextSteps leading (pageStep leading y0) rest).2) := by
        by_cases h : y0 - leading < 60
        · simp [addTextSteps, pageStep, h]
        · simp [addTextSteps, pageStep, h]
      rw [hstep, ih (pageStep leading y0)]
      simp [List.range_succ_eq_map, Function.iterate_succ_apply, List.map_map,
        Function.comp]

theorem pptxSlides_total (stages : List String) (tips : List (String × String))
    (h : ∀ n ∈ stages, (tipsGet tips n).isSome) :
    ∃ slides, pptxSlides stages tips = Except.ok slides ∧
      slides.map Prod.fst = stages := by
  induction stages with
  | nil => exact ⟨[], rfl, rfl⟩
  | cons n rest ih =>
      have hn := h n (List.mem_cons_self n rest)
      obtain ⟨t, ht⟩ := Option.isSome_iff_exists.mp hn
      obtain ⟨slides, hs, hmap⟩ := ih fun m hm => h m (List.mem_cons_of_mem n hm)
      refine ⟨(n, t) :: slides, ?_, by simp [hmap]⟩
      simp [pptxSlides, ht, hs]

/-! ### Claim C1 -/

/-- Counterexample to C1: a valid payload whose two stages share the name "A"
parses, but looking up the tip by the first stage's name returns the second
stage's tip "t2", not the tip "t1" supplied for that stage — the dict
comprehension lets the later duplicate overwrite the earlier tip. -/
theorem C1_counterexample :
    parseWorkflow (workflowJson [("A", "t1"), ("A", "t2")]) =
      Except.ok ⟨[⟨"A", "t1"⟩, ⟨"A", "t2"⟩]⟩ ∧
    tipsGet (buildTips [⟨"A", "t1"⟩, ⟨"A", "t2"⟩]) "A" = some "t2" ∧
    some "t2" ≠ some "t1" :=
  ⟨rfl, rfl, by decide⟩

/-- Claim C1, amended: for every syntactically valid WorkflowSchema payload
with N ≥ 1 stages, validation produces a model with exactly N stages, each
parsed from the payload element at the same position (source order), and the
installed session stage list preserves that order; the tip lookup by a stage's
name returns the tip of the LAST stage in the payload bearing that name — so
it returns exactly each stage's supplied tip whenever stage names are unique,
but not when two stages share a name. -/
theorem C1_parse_install (fields : List (String × Json)) (xs : List Json)
    (wf : WorkflowModel)
    (hfield : alookupJ fields "workflow" = some (Json.arr xs))
    (hparse : parseWorkflow (Json.obj fields) = Except.ok wf)
    (hN : 1 ≤ xs.length) :
    wf.workflow.length = xs.length ∧
    (∀ i : ℕ, xs[i]?.map parseStage = wf.workflow[i]?.map Except.ok) ∧
    (installWorkflow (Json.obj fields) wf).stages = wf.workflow.map (fun s => s.stage) ∧
    (∀ s ∈ wf.workflow,
      tipsGet (buildTips wf.workflow) s.stage =
        (wf.workflow.reverse.find? (fun t => t.stage == s.stage)).map StageModel.tip) ∧
    ((wf.workflow.map fun s => s.stage).Nodup →
      ∀ s ∈ wf.workflow, tipsGet (buildTips wf.workflow) s.stage = some s.tip) := by
  have hstages := parseWorkflow_obj hfield hparse
  refine ⟨parseStages_ok_length hstages, parseStages_ok_get hstages, rfl, ?_, ?_⟩
  · intro s _
    exact tipsGet_buildTips wf.workflow s.stage
  · intro hnd s hs
    exact tipsGet_buildTips_nodup wf.workflow hnd s hs

/-- Witness for C1 (amended): a concrete two-stage payload with distinct
names, where the lookup by the first stage's name returns its own tip. -/
theorem C1_parse_install_witness :
    tipsGet (buildTips [⟨"A", "t1"⟩, ⟨"B", "t2"⟩]) "A" = some "t1" := by
  have h := C1_parse_install
    [("workflow", Json.arr
      [Json.obj [("stage", Json.str "A"), ("tip", Json.str "t1")],
       Json.obj [("stage", Json.str "B"), ("tip", Json.str "t2")]])]
    [Json.obj [("stage", Json.str "A"), ("tip", Json.str "t1")],
     Json.obj [("stage", Json.str "B"), ("tip", Json.str "t2")]]
    ⟨[⟨"A", "t1"⟩, ⟨"B", "t2"⟩]⟩ rfl rfl (by decide)
  exact h.2.2.2.2 (by decide) ⟨"A", "t1"⟩ (by decide)

/-! ### Claim C7 -/

/-- Counterexample to C7: the tip lookup is not total — looking up a name
absent from the tips dictionary is a `KeyError` (modelled `none`), not the
empty string the claim requires. -/
theorem C7_counterexample :
    tipsGet (buildTips [⟨"A", "t"⟩]) "X" = none ∧
    (none : Option String) ≠ some "" :=
  ⟨rfl, by decide⟩

/-- Claim C7, amended: the lookup `tips[s]` raises on a missing key, but every
name the slide-deck generator looks up comes from the same workflow the tips
dictionary was built from, so the lookup always succeeds there: the PPTX
export never aborts and emits exactly one content slide per stage, in stage
order, regardless of tip contents (empty tips included). -/
theorem C7_pptx_one_slide_per_stage :
    ∀ ws : List StageModel, ∃ slides,
      pptxSlides (ws.map fun s => s.stage) (buildTips ws) = Except.ok slides ∧
      slides.map Prod.fst = ws.map (fun s => s.stage) ∧
      slides.length = ws.length := by
  intro ws
  have hkeys : ∀ n ∈ ws.map (fun s => s.stage), (tipsGet (buildTips ws) n).isSome := by
    intro n hn
    obtain ⟨s, hs, rfl⟩ := List.mem_map.mp hn
    obtain ⟨t, ht⟩ := tipsGet_buildTips_isSome ws s hs
    simp [ht]
  obtain ⟨slides, h1, h2⟩ := pptxSlides_total _ _ hkeys
  refine ⟨slides, h1, h2, ?_⟩
  have := congrArg List.length h2
  simpa using this

/-! ### Claim C2 -/

/-- Counterexample to C2: on a raw text with two top-level brace regions, the
extractor returns the span merging both regions, while the first (leftmost,
non-overlapping) region is strictly shorter. -/
theorem C2_counterexample :
    extract "\x7ba\x7d \x7bb\x7d" = some "\x7ba\x7d \x7bb\x7d" ∧
    spec_firstRegion "\x7ba\x7d \x7bb\x7d" = some "\x7ba\x7d" ∧
    ("\x7ba\x7d \x7bb\x7d" : String) ≠ "\x7ba\x7d" :=
  ⟨rfl, rfl, by decide⟩

/-- Claim C2, amended: the greedy regex returns the single span running from
the first opening brace of the raw text to its last closing brace — when the
text holds several top-level regions this span merges them all, rather than
being the first region. -/
theorem C2_greedy_span (pre mid post : List Char)
    (hpre : ∀ c ∈ pre, c ≠ lbrace)
    (hpost : ∀ c ∈ post, c ≠ rbrace)
    (hhead : mid.head? = some lbrace)
    (hlast : mid.getLast? = some rbrace) :
    extractJson (pre ++ mid ++ post) = some mid := by
  obtain ⟨m, rfl⟩ : ∃ m, mid = lbrace :: m := by
    cases mid with
    | nil => cases hhead
    | cons c m =>
        refine ⟨m, ?_⟩
        have hc : c = lbrace := by simpa using hhead
        rw [hc]
  obtain ⟨t, hrev⟩ : ∃ t, m.reverse = rbrace :: t := by
    have h1 : (lbrace :: m).reverse.head? = some rbrace := by
      rw [List.head?_reverse]
      exact hlast
    cases hm : m.reverse with
    | nil =>
        rw [List.reverse_cons, hm] at h1
        simp at h1
        exact absurd h1 (by decide)
    | cons c t =>
        rw [List.reverse_cons, hm] at h1
        simp at h1
        subst h1
        exact ⟨t, rfl⟩
  have hm2 : m = t.reverse ++ [rbrace] := by
    have := congrArg List.reverse hrev
    simpa using this
  have h1 : (pre ++ (lbrace :: m) ++ post).dropWhile (fun c => c ≠ lbrace) =
      lbrace :: (m ++ post) := by
    rw [List.append_assoc,
      dropWhile_append_of_forall _ pre _ (fun x hx => by simpa using hpre x hx),
      List.cons_append, List.dropWhile_cons, if_neg (by simp)]
  have h2 : (lbrace :: (m ++ post)).reverse.dropWhile (fun d => d ≠ rbrace) =
      rbrace :: (t ++ [lbrace]) := by
    rw [List.reverse_cons, List.reverse_append, List.append_assoc,
      dropWhile_append_of_forall _ post.reverse _
        (fun x hx => by simpa using hpost x (List.mem_reverse.mp hx)),
      hrev, List.cons_append, List.dropWhile_cons, if_neg (by simp)]
  unfold extractJson
  rw [h1]
  show greedyClose (lbrace :: (m ++ post)) = some (lbrace :: m)
  unfold greedyClose
  rw [h2]
  show some (rbrace :: (t ++ [lbrace])).reverse = some (lbrace :: m)
  rw [hm2]
  simp

/-- Witness for C2 (amended): a single complete region is returned whole. -/
theorem C2_greedy_span_witness :
    extract "\x7bx\x7d" = some "\x7bx\x7d" := by
  have h := C2_greedy_span [] ("\x7bx\x7d".data) [] (by simp) (by simp)
      (by decide) (by decide)
  simp only [List.nil_append, List.append_nil] at h
  unfold extract
  rw [h]
  rfl

/-! ### Claim C3 -/

/-- Counterexample to C3: with pricing details `{"qty": 0, "Qty": 5}`, the
first present alias `qty` holds 0, but Python's `or` skips falsy values, so
normalization stores 5 from the second alias instead of the supplied 0. -/
theorem C3_counterexample :
    normalizePricing
        (Json.obj [("X", Json.obj [("qty", Json.num 0), ("Qty", Json.num 5)])]) =
      Json.arr [Json.obj [("item", Json.str "X"), ("qty", Json.num 5),
                          ("unit", Json.str ""), ("price", Json.num 0)]] ∧
    (5 : ℚ) ≠ 0 :=
  ⟨rfl, by norm_num⟩

/-- Claim C3, amended: dict-shaped pricing is coalesced into the canonical
line-item list preferring the first present TRUTHY field alias (qty before
Qty, unit before Unit, price before Unit Price) — a present falsy value (0,
empty string, null) is treated as missing — with quantity defaulting to 1 and
price to 0 when both aliases are missing or falsy; the spec's example
`{"Integration": {"qty": 2, "price": 500}}` yields the single line item
(item "Integration", qty 2, unit "", price 500, derived subtotal 1000),
identical to what the equivalent list-shaped payload yields. -/
theorem C3_alias_normalization :
    (∀ (item : String) (d : List (String × Json)),
      (jTruthy (jGet d "qty") = true →
        entryField (normalizeEntry item (Json.obj d)) "qty" = some (jGet d "qty")) ∧
      (jTruthy (jGet d "qty") = false → jTruthy (jGet d "Qty") = true →
        entryField (normalizeEntry item (Json.obj d)) "qty" = some (jGet d "Qty")) ∧
      (jTruthy (jGet d "qty") = false → jTruthy (jGet d "Qty") = false →
        entryField (normalizeEntry item (Json.obj d)) "qty" = some (Json.num 1)) ∧
      (jTruthy (jGet d "price") = true →
        entryField (normalizeEntry item (Json.obj d)) "price" = some (jGet d "price")) ∧
      (jTruthy (jGet d "price") = false → jTruthy (jGet d "Unit Price") = true →
        entryField (normalizeEntry item (Json.obj d)) "price" =
          some (jGet d "Unit Price")) ∧
      (jTruthy (jGet d "price") = false → jTruthy (jGet d "Unit Price") = false →
        entryField (normalizeEntry item (Json.obj d)) "price" = some (Json.num 0)) ∧
      (jTruthy (jGet d "unit") = true →
        entryField (normalizeEntry item (Json.obj d)) "unit" = some (jGet d "unit")) ∧
      (jTruthy (jGet d "unit") = false → jTruthy (jGet d "Unit") = true →
        entryField (normalizeEntry item (Json.obj d)) "unit" = some (jGet d "Unit")) ∧
      (jTruthy (jGet d "unit") = false → jTruthy (jGet d "Unit") = false →
        entryField (normalizeEntry item (Json.obj d)) "unit" = some (Json.str ""))) ∧
    normalizePricing integDictPricing = Json.arr [integLineItem] ∧
    normalizePricing (Json.arr [integLineItem]) = Json.arr [integLineItem] ∧
    entrySubtotal integLineItem = some 1000 := by
  refine ⟨?_, rfl, rfl, ?_⟩
  case refine_2 =>
    have h : entrySubtotal integLineItem = some ((2 : ℚ) * 500) := rfl
    rw [h]
    norm_num
  intro item d
  refine ⟨?_, ?_, ?_, ?_, ?_, ?_, ?_, ?_, ?_⟩
  · intro h1
    simp [normalizeEntry, entryField, alookupJ, pyOr3, h1]
  · intro h1 h2
    simp [normalizeEntry, entryField, alookupJ, pyOr3, h1, h2]
  · intro h1 h2
    simp [normalizeEntry, entryField, alookupJ, pyOr3, h1, h2]
  · intro h1
    simp [normalizeEntry, entryField, alookupJ, pyOr3, h1]
  · intro h1 h2
    simp [normalizeEntry, entryField, alookupJ, pyOr3, h1, h2]
  · intro h1 h2
    simp [normalizeEntry, entryField, alookupJ, pyOr3, h1, h2]
  · intro h1
    simp [normalizeEntry, entryField, alookupJ, pyOr3, h1]
  · intro h1 h2
    simp [normalizeEntry, entryField, alookupJ, pyOr3, h1, h2]
  · intro h1 h2
    simp [normalizeEntry, entryField, alookupJ, pyOr3, h1, h2]

/-- Witness for C3 (amended): a truthy first alias is taken as supplied. -/
theorem C3_alias_normalization_witness :
    entryField (normalizeEntry "Support" (Json.obj [("qty", Json.num 3)])) "qty" =
      some (Json.num 3) :=
  (C3_alias_normalization.1 "Support" [("qty", Json.num 3)]).1 (by decide)

/-! ### Claim C8 -/

/-- Claim C8: during PDF export, `add_text` decrements the cursor by `leading`
per line; exactly when the decremented cursor falls below the threshold 60 it
performs one page break and resets the cursor to the top margin `pageH - 40`,
from which subsequent lines continue: the i-th line is drawn at the i-th
iterate of this transition, the break flag is set exactly at the crossings,
and the returned cursor is the iterate after the last line. -/
theorem C8_pagination (leading y0 : ℚ) (lines : List String) :
    (addTextSteps leading y0 lines).1.length = lines.length ∧
    (addTextSteps leading y0 lines).2 = (pageStep leading)^[lines.length] y0 ∧
    (∀ y : ℚ, y - leading < 60 → pageStep leading y = pageH - 40) ∧
    (∀ y : ℚ, ¬ y - leading < 60 → pageStep leading y = y - leading) ∧
    (∀ i : ℕ, i < lines.length →
      (addTextSteps leading y0 lines).1[i]? =
        some ((pageStep leading)^[i] y0,
          decide ((pageStep leading)^[i] y0 - leading < 60))) := by
  rw [addTextSteps_closed]
  refine ⟨by simp, rfl, ?_, ?_, ?_⟩
  · intro y h
    simp [pageStep, h]
  · intro y h
    simp [pageStep, h]
  · intro i hi
    simp [List.getElem?_map, List.getElem?_range hi]

/-- Witness for C8: with leading 14 from cursor 70, the first line is drawn at
70 and is followed by a page break (70 - 14 = 56 < 60). -/
theorem C8_pagination_witness :
    (addTextSteps 14 70 ["a", "b"]).1[0]? = some (70, true) := by
  have h := (C8_pagination 14 70 ["a", "b"]).2.2.2.2 0 (by decide)
  rw [Function.iterate_zero_apply] at h
  rw [decide_eq_true (by norm_num : (70 : ℚ) - 14 < 60)] at h
  exact h

/-! ### Claim C9 -/

/-- Claim C9: deal-size bucketing is a pure function of the numeric amount
with exclusive upper bounds — amount < 100,000 maps to "<100K", < 500,000 to
"100K-500K", < 1,000,000 to "500K-1M", < 5,000,000 to "1M-5M", otherwise
">5M"; in particular bucket 99999 = "<100K", bucket 100000 = "100K-500K",
bucket 999999 = "500K-1M" and bucket 5000000 = ">5M". -/
theorem C9_bucket_thresholds :
    (∀ a : ℕ, a < 100000 → bucket a = "<100K") ∧
    (∀ a : ℕ, 100000 ≤ a → a < 500000 → bucket a = "100K-500K") ∧
    (∀ a : ℕ, 500000 ≤ a → a < 1000000 → bucket a = "500K-1M") ∧
    (∀ a : ℕ, 1000000 ≤ a → a < 5000000 → bucket a = "1M-5M") ∧
    (∀ a : ℕ, 5000000 ≤ a → bucket a = ">5M") ∧
    bucket 99999 = "<100K" ∧ bucket 100000 = "100K-500K" ∧
    bucket 999999 = "500K-1M" ∧ bucket 5000000 = ">5M" := by
  refine ⟨?_, ?_, ?_, ?_, ?_, rfl, rfl, rfl, rfl⟩
  · intro a h
    unfold bucket
    rw [if_pos h]
  · intro a h1 h2
    unfold bucket
    rw [if_neg (by omega), if_pos h2]
  · intro a h1 h2
    unfold bucket
    rw [if_neg (by omega), if_neg (by omega), if_pos h2]
  · intro a h1 h2
    unfold bucket
    rw [if_neg (by omega), if_neg (by omega), if_neg (by omega), if_pos h2]
  · intro a h
    unfold bucket
    rw [if_neg (by omega), if_neg (by omega), if_neg (by omega), if_neg (by omega)]

/-- Witness for C9: the middle bucket at a concrete amount. -/
theorem C9_bucket_thresholds_witness : bucket 300000 = "100K-500K" :=
  C9_bucket_thresholds.2.1 300000 (by decide) (by decide)

/-! ### Claim C10 -/

/-- Claim C10: the Grand Total printed in the exported PDF is the sum over the
user's editable pricing table of Qty × Unit Price (the `total` of src/app.py
line 265), independent of the AI-returned pricing rows rendered next to it, so
the printed grand total and the sum of the printed pricing lines can differ —
exhibited by a concrete table/pricing pair. -/
theorem C10_pdf_grand_total :
    (∀ (tbl : List PriceRow) (display : List PricingDisplayRow),
        printedGrandTotal (pdfPricingSection tbl display) = some (grandTotal tbl)) ∧
    (∀ (tbl : List PriceRow) (d1 d2 : List PricingDisplayRow),
        printedGrandTotal (pdfPricingSection tbl d1) =
          printedGrandTotal (pdfPricingSection tbl d2)) ∧
    printedGrandTotal
        (pdfPricingSection [⟨"Integration", 1, "Lot", 100⟩]
          [⟨"Integration", 1, "Lot", 50⟩]) = some 100 ∧
    printedLinesTotal
        (pdfPricingSection [⟨"Integration", 1, "Lot", 100⟩]
          [⟨"Integration", 1, "Lot", 50⟩]) = 50 ∧
    (100 : ℚ) ≠ 50 := by
  refine ⟨?_, ?_, ?_, ?_, by norm_num⟩
  · intro tbl display
    exact printedGrandTotal_map_append display (grandTotal tbl)
  · intro tbl d1 d2
    unfold pdfPricingSection
    rw [printedGrandTotal_map_append d1 (grandTotal tbl),
        printedGrandTotal_map_append d2 (grandTotal tbl)]
  · norm_num [pdfPricingSection, printedGrandTotal, grandTotal, rowSubtotal]
  · norm_num [pdfPricingSection, printedLinesTotal, grandTotal, rowSubtotal]

/-! ### Claim C4 -/

/-- Counterexample to C4: the payload with valid shape and zero stages parses
successfully, and the Generate Workflow handler installs an empty workflow
model (empty stage list, empty tips) without surfacing any error — it is not
treated as a failure. -/
theorem C4_counterexample :
    parseWorkflow (workflowJson []) = Except.ok ⟨[]⟩ ∧
    generateHandler ⟨none, [], []⟩ (workflowJson []) =
      (⟨some (workflowJson []), [], []⟩, false) :=
  ⟨rfl, rfl⟩

/-- Claim C4, amended: a payload with valid shape and zero stages is accepted
as a valid empty workflow — from any prior session state, the handler installs
the payload with an empty stage list and empty tips dictionary and reports no
error; there is no empty-result failure path. -/
theorem C4_empty_workflow_installed :
    ∀ st : SessionState,
      generateHandler st (workflowJson []) =
        (⟨some (workflowJson []), [], []⟩, false) := by
  intro st
  rfl

/-! ### Claim C5 -/

/-- Claim C5: the Re-Render Diagram handler leaves the previous session state
(stored payload, stages, tips) completely unchanged and surfaces an error when
re-validation of the edited payload fails, and replaces the state only on
successful re-validation. -/
theorem C5_reRender_fail_preserves_state :
    ∀ (st : SessionState) (j : Json),
      (∀ e, parseWorkflow j = Except.error e → reRenderHandler st j = (st, true)) ∧
      (∀ wf, parseWorkflow j = Except.ok wf →
        reRenderHandler st j = (installWorkflow j wf, false)) := by
  intro st j
  constructor
  · intro e he
    simp [reRenderHandler, he]
  · intro wf hwf
    simp [reRenderHandler, hwf]

/-- Witness for C5: a concrete prior state survives a failing edit (the edited
payload `null` is not a valid WorkflowSchema object). -/
theorem C5_reRender_fail_preserves_state_witness :
    reRenderHandler ⟨some (workflowJson [("A", "t")]), ["A"], [("A", "t")]⟩ Json.null =
      (⟨some (workflowJson [("A", "t")]), ["A"], [("A", "t")]⟩, true) :=
  (C5_reRender_fail_preserves_state ⟨some (workflowJson [("A", "t")]), ["A"], [("A", "t")]⟩
    Json.null).1 "object expected" rfl

/-! ### Claim C6 -/

/-- Counterexample to C6: for 3 input rows where row 2's call fails, the batch
does not produce 3 entries — the exception propagates and the whole batch
evaluates to the row-2 error. -/
theorem C6_counterexample :
    crmBatch crmCall0 [1, 2, 3] = Except.error "boom" :=
  rfl

/-- Claim C6, amended: the CRM playbook loop has no per-row error capture — a
failure on any row's call propagates out of the loop, discarding the rows
already processed and skipping all subsequent rows, regardless of how many
rows precede or follow the failing one. -/
theorem C6_failure_aborts_batch {Row : Type} (call : Row → Except String String)
    (pre : List Row) (r : Row) (post : List Row) (e : String)
    (hpre : ∀ x ∈ pre, (call x).isOk) (hr : call r = Except.error e) :
    crmBatch call (pre ++ r :: post) = Except.error e := by
  induction pre with
  | nil => simp [crmBatch, hr]
  | cons a rest ih =>
      have ha : (call a).isOk := hpre a (List.mem_cons_self a rest)
      obtain ⟨s, hs⟩ : ∃ s, call a = Except.ok s := by
        cases h : call a with
        | ok s => exact ⟨s, rfl⟩
        | error e2 => rw [h] at ha; simp [Except.isOk, Except.toBool] at ha
      have ih2 := ih fun x hx => hpre x (List.mem_cons_of_mem a hx)
      simp [crmBatch, hs, ih2]

/-- Witness for C6: the concrete 3-row batch, applied through the general
abort theorem with the failing row in the middle. -/
theorem C6_failure_aborts_batch_witness :
    crmBatch crmCall0 ([1] ++ 2 :: [3]) = Except.error "boom" :=
  C6_failure_aborts_batch crmCall0 [1] 2 [3] "boom" (by decide) rfl
